import Mathlib

set_option maxRecDepth 8000

/-!
Verification development for the TPT transport-entry backend.

The JavaScript source is shallowly embedded:
* strings are Lean `String`s; the byte-wise string comparison used by the
  document store's descending `id` sort is modelled by the structural
  lexicographic comparison `lexLt` on the underlying character lists;
* `parseInt` applied to the (digit-only) ID suffixes is modelled by
  `jsParseInt`, which reads the leading run of decimal digits and fails
  (NaN) when there is none;
* dates are pairs `(year, month)` with months 1..12 — the source's
  `getFinancialYear` reads only `getFullYear()` and `getMonth() + 1`;
* the Mongo collection of transport entries is a Lean list; queries are
  filters over it and the `findOne(...).sort({ id: -1 })` lookup is the
  lexicographic maximum over the matching elements.
-/

namespace TPT

/-- Lexicographic comparison of character lists by code point, modelling the
byte-wise string comparison the document store uses when sorting the ASCII
`id` strings in descending order. -/
def lexLt : List Char → List Char → Bool
  | [], [] => false
  | [], _ :: _ => true
  | _ :: _, [] => false
  | a :: as, b :: bs => if a < b then true else if b < a then false else lexLt as bs

/-- `String(sequence).padStart(4, '0')` from the pre-save hook. -/
def pad4 (n : Nat) : String :=
  String.mk (List.replicate (4 - (Nat.repr n).length) '0') ++ Nat.repr n

/-- `parseInt` applied to an ID suffix: reads the leading run of decimal
digits and returns `none` (NaN) when the string does not start with a digit.
(The sign/whitespace handling of the full JS `parseInt` is never exercised by
the ID suffixes in scope.) -/
def jsParseInt (s : String) : Option Nat :=
  let ds := s.data.takeWhile Char.isDigit
  if ds.isEmpty then none
  else some (ds.foldl (fun a c => 10 * a + (c.toNat - 48)) 0)

/-- `id.split('-')` followed by taking the last element: the characters after
the last `'-'` of the string (the whole string if there is no dash). -/
def lastDashField (s : String) : String :=
  String.mk ((s.data.reverse.takeWhile (fun c => c != '-')).reverse)

/-- One step of the running lexicographic maximum. -/
def maxStep (acc : Option String) (s : String) : Option String :=
  match acc with
  | none => some s
  | some m => if lexLt m.data s.data then some s else some m

/-- The `findOne({ id: { $regex: ^p } }).sort({ id: -1 })` lookup: the
lexicographically greatest string of the list, `none` on the empty list. -/
def maxLex (l : List String) : Option String :=
  l.foldl maxStep none

/-- `String(y).slice(-2)`: the last two characters (the whole string when it
is shorter). -/
def sliceLast2 (s : String) : String :=
  String.mk (s.data.drop (s.data.length - 2))

/-- `getFinancialYear` from `src/models/TransportEntry.js`: the financial
year starts in April; dates are `(year, month)` with month 1..12 (the source
uses `getMonth() + 1`; the day is never read). -/
def getFinancialYear (year month : Nat) : String :=
  if 4 ≤ month then Nat.repr year ++ "-" ++ sliceLast2 (Nat.repr (year + 1))
  else Nat.repr (year - 1) ++ "-" ++ sliceLast2 (Nat.repr year)

/-- The ID prefix `` `TE-FY${financialYear}-` `` of the pre-save hook. -/
def pfxOf (fy : String) : String :=
  "TE-FY" ++ fy ++ "-"

/-- The store-side `find({ id: { $regex: `^TE-FY${financialYear}-` } })`:
the IDs that start with the financial-year prefix (the prefix contains no
regex metacharacter, so the anchored regex is a plain prefix test). -/
def matchIds (store : List String) (p : String) : List String :=
  store.filter (fun s => p.data.isPrefixOf s.data)

/-- The sequence chosen by the pre-save hook: parse the trailing numeric
suffix of the lexicographically greatest matching ID and add one; default 1
when no entry matches or the suffix does not parse. -/
def nextSeq (store : List String) (p : String) : Nat :=
  match maxLex (matchIds store p) with
  | none => 1
  | some last =>
    match jsParseInt (lastDashField last) with
    | none => 1
    | some n => n + 1

/-- The business ID generated by the pre-save hook for a document without an
`id`, given the IDs already in the store and the financial year. -/
def createId (store : List String) (fy : String) : String :=
  pfxOf fy ++ pad4 (nextSeq store (pfxOf fy))

/-- Serial creation: each date in `ds` is a `(year, month)` pair; the hook
allocates an ID from the current store and the document is persisted before
the next creation runs. Returns the assigned IDs in order. -/
def createdIds (store : List String) (ds : List (Nat × Nat)) : List String :=
  match ds with
  | [] => []
  | d :: rest =>
    let nid := createId store (getFinancialYear d.1 d.2)
    nid :: createdIds (store ++ [nid]) rest

/-- The full pre-save hook: `if (!this.id)` — generation runs only when the
document's `id` is missing (`none`) or the empty string (JS falsiness); a
non-empty client-supplied `id` is kept verbatim. -/
def preSaveId (curId : Option String) (store : List String) (d : Nat × Nat) : String :=
  match curId with
  | none => createId store (getFinancialYear d.1 d.2)
  | some s => if s.isEmpty then createId store (getFinancialYear d.1 d.2) else s

/-- A stored transport entry, restricted to the fields the list/update/stats
routes read: the Mongo `_id` (`oid`), the business `id`, the owning user,
the searchable text fields, the billing status and total, and `createdAt`. -/
structure Entry where
  oid : Nat
  id : String
  userId : Nat
  vehicleNo : String
  fromLoc : String
  toLoc : String
  invoiceNo : String
  ownerNameAndAddress : String
  status : String
  total : Int
  createdAt : Nat
deriving DecidableEq

/-- Contiguous-substring test on character lists. -/
def hasSub (pat : List Char) : List Char → Bool
  | [] => pat.isEmpty
  | c :: rest => pat.isPrefixOf (c :: rest) || hasSub pat rest

/-- `$regex: term, $options: 'i'`: case-insensitive substring test (the
route passes the raw term; regex metacharacters are not modelled — no claim
depends on pattern syntax). -/
def containsCI (pat s : String) : Bool :=
  hasSub (pat.data.map Char.toLower) (s.data.map Char.toLower)

/-- The `$or` search clause of `GET /api/transport-entries`. -/
def matchesSearch (search : String) (e : Entry) : Bool :=
  containsCI search e.id || containsCI search e.vehicleNo
    || containsCI search e.fromLoc || containsCI search e.toLoc
    || containsCI search e.invoiceNo || containsCI search e.ownerNameAndAddress

/-- The optional clauses of the list query: search, status, from, to. An
empty string models an absent (or empty, hence falsy) request parameter. -/
def scopeClauses (search status fromF toF : String) (e : Entry) : Bool :=
  (search.isEmpty || matchesSearch search e)
    && (status.isEmpty || e.status == status)
    && (fromF.isEmpty || containsCI fromF e.fromLoc)
    && (toF.isEmpty || containsCI toF e.toLoc)

/-- The Mongo query built by the list route: `{ userId: req.user._id }` plus
the optional clauses. -/
def matchesQuery (uid : Nat) (search status fromF toF : String) (e : Entry) : Bool :=
  (e.userId == uid) && scopeClauses search status fromF toF e

/-- `Math.ceil(total / limit)` for a positive `limit`. -/
def jsCeilDiv (t l : Nat) : Nat :=
  (t + l - 1) / l

/-- The response envelope of `GET /api/transport-entries`. -/
structure ListResult where
  entries : List Entry
  total : Nat
  page : Nat
  pages : Nat
  limit : Nat
  hasNext : Bool
  hasPrev : Bool
deriving DecidableEq

/-- `GET /api/transport-entries`: filter by the query, sort by `createdAt`
descending, apply `skip = (page-1)*limit` and `limit`, and report the
pagination envelope computed from the total count of matching documents. -/
def listEntries (db : List Entry) (uid : Nat) (page limit : Nat)
    (search status fromF toF : String) : ListResult :=
  let matching := db.filter (matchesQuery uid search status fromF toF)
  let sorted := List.insertionSort (fun a b => b.createdAt ≤ a.createdAt) matching
  let skip := (page - 1) * limit
  let total := matching.length
  let pages := jsCeilDiv total limit
  { entries := (sorted.drop skip).take limit
    total := total
    page := page
    pages := pages
    limit := limit
    hasNext := decide (page < pages)
    hasPrev := decide (1 < page) }

/-- The `findOne({ _id: req.params.id, userId: req.user._id })` shared by the
targeted GET/PUT/DELETE routes. -/
def findOwned (db : List Entry) (uid rid : Nat) : Option Entry :=
  db.find? (fun e => e.oid == rid && e.userId == uid)

/-- HTTP status of `GET /api/transport-entries/:id` for a verified caller. -/
def getByIdStatus (db : List Entry) (uid rid : Nat) : Nat :=
  match findOwned db uid rid with
  | none => 404
  | some _ => 200

/-- An update request body: `req.body` restricted to the modelled fields.
`findByIdAndUpdate(id, req.body)` `$set`s every field present in the body —
including `id` and `userId` when the client supplies them. -/
structure UpdateBody where
  id : Option String
  userId : Option Nat
  vehicleNo : Option String
  fromLoc : Option String
  toLoc : Option String
  invoiceNo : Option String
  ownerNameAndAddress : Option String
  status : Option String
  total : Option Int
deriving DecidableEq

/-- `$set` semantics of `findByIdAndUpdate`: each field present in the body
overwrites the stored value. -/
def applyUpdate (b : UpdateBody) (e : Entry) : Entry :=
  { e with
    id := b.id.getD e.id
    userId := b.userId.getD e.userId
    vehicleNo := b.vehicleNo.getD e.vehicleNo
    fromLoc := b.fromLoc.getD e.fromLoc
    toLoc := b.toLoc.getD e.toLoc
    invoiceNo := b.invoiceNo.getD e.invoiceNo
    ownerNameAndAddress := b.ownerNameAndAddress.getD e.ownerNameAndAddress
    status := b.status.getD e.status
    total := b.total.getD e.total }

/-- `PUT /api/transport-entries/:id`: ownership-scoped lookup, then
`findByIdAndUpdate(req.params.id, req.body)`. Returns the HTTP status and
the store after the request. -/
def putById (db : List Entry) (uid rid : Nat) (b : UpdateBody) : Nat × List Entry :=
  match findOwned db uid rid with
  | none => (404, db)
  | some _ => (200, db.map (fun e => if e.oid == rid then applyUpdate b e else e))

/-- `DELETE /api/transport-entries/:id`: ownership-scoped lookup, then
`findByIdAndDelete(req.params.id)`. -/
def deleteById (db : List Entry) (uid rid : Nat) : Nat × List Entry :=
  match findOwned db uid rid with
  | none => (404, db)
  | some _ => (200, db.filter (fun e => !(e.oid == rid)))

/-- One `$group` bucket of the status aggregation. -/
structure StatusCount where
  status : String
  count : Nat
deriving DecidableEq

/-- The payload of `GET /api/transport-entries/stats/summary`. -/
structure Stats where
  totalEntries : Nat
  statusBreakdown : List StatusCount
  totalAmount : Int
  recentEntries : Nat
deriving DecidableEq

/-- The stats route: everything is scoped to `{ userId }`; the status
aggregation produces one bucket per status value present; `totalAmount` is
`totalAmount[0]?.total || 0`, i.e. 0 when the aggregation over an empty
scope returns no row; `recentEntries` counts documents created within the
trailing 7 days (86400000 ms per day) of `now`. -/
def statsSummary (db : List Entry) (uid : Nat) (now : Nat) : Stats :=
  let mine := db.filter (fun e => e.userId == uid)
  { totalEntries := mine.length
    statusBreakdown :=
      ((mine.map (fun e => e.status)).dedup).map
        (fun st => ⟨st, (mine.filter (fun e => e.status == st)).length⟩)
    totalAmount :=
      match mine with
      | [] => 0
      | _ => (mine.map (fun e => e.total)).sum
    recentEntries := (mine.filter (fun e => now - 7 * 86400000 ≤ e.createdAt)).length }

/-- `isValidMobile` from `src/utils/validators.js`: accepts any format. -/
def isValidMobile (_mobile : String) : Bool := true

/-- `isValidGST` from `src/utils/validators.js`: accepts any format. -/
def isValidGST (_gst : String) : Bool := true

/-- `isValidPAN` from `src/utils/validators.js`: accepts any format. -/
def isValidPAN (_pan : String) : Bool := true

/-- `isValidIFSC` from `src/utils/validators.js`: accepts any format. -/
def isValidIFSC (_ifsc : String) : Bool := true

/-- `isValidAccountNumber` from `src/utils/validators.js`: accepts any
format. -/
def isValidAccountNumber (_accountNumber : String) : Bool := true

/-- JS `String.prototype.trim`: whitespace stripped from both ends. -/
def jsTrim (s : String) : String :=
  String.mk (((s.data.dropWhile Char.isWhitespace).reverse.dropWhile
    Char.isWhitespace).reverse)

/-- `isValidPersonName` from `src/utils/validators.js`: trimmed length at
least 2 and only characters of the class `[a-zA-Z\s.]`. -/
def isValidPersonName (name : String) : Bool :=
  if (jsTrim name).length < 2 then false
  else (jsTrim name).data.all (fun c => c.isAlpha || c.isWhitespace || c == '.')

/-- `isValidCompanyName` from `src/utils/validators.js`: trimmed length at
least 2 and only characters of the class `[a-zA-Z0-9\s&.-]`. -/
def isValidCompanyName (companyName : String) : Bool :=
  if (jsTrim companyName).length < 2 then false
  else (jsTrim companyName).data.all
    (fun c => c.isAlphanum || c.isWhitespace || c == '&' || c == '.' || c == '-')

/-- Modelled from the spec: the financial-year label spanning calendar years
`a` and `b`, rendered as the full start year, a dash, and the last two
characters of the end year. -/
def specFYLabel (a b : Nat) : String :=
  Nat.repr a ++ "-" ++ sliceLast2 (Nat.repr b)

/-- Parsed numeric suffixes of a list of business IDs (`0` for a suffix that
does not parse), used to state the strict-increase property of C1. -/
def suffixNats (ids : List String) : List Nat :=
  ids.map (fun s => (jsParseInt (lastDashField s)).getD 0)

/-- Concrete store for the C5 counterexample: one entry with Mongo `_id` 1
owned by user 2. -/
def dbC5 : List Entry :=
  [⟨1, "TE-FY2024-25-0001", 2, "MH12AB1234", "Pune", "Mumbai", "INV-1", "O", "PENDING", 100, 10⟩]

/-- Concrete entry for the C6 failing input: Mongo `_id` 1, owned by user 7. -/
def entryC6 : Entry :=
  ⟨1, "TE-FY2024-25-0001", 7, "MH12AB1234", "Pune", "Mumbai", "INV-1", "O", "PENDING", 100, 10⟩

/-- Concrete C6 request body: a valid update that also supplies `id` and
`userId`. -/
def bodyC6 : UpdateBody :=
  ⟨some "CLIENT-CHOSEN-ID", some 9, some "MH12AB1234", some "Pune", some "Mumbai",
    none, none, none, none⟩

end TPT

namespace TPT

theorem str_data_append (a b : String) : (a ++ b).data = a.data ++ b.data := by
  cases a; cases b; rfl

theorem str_mk_data (s : String) : String.mk s.data = s := by
  cases s; rfl

theorem lexLt_irrefl (l : List Char) : lexLt l l = false := by
  induction l with
  | nil => rfl
  | cons a as ih =>
    rw [lexLt, if_neg (lt_irrefl a), if_neg (lt_irrefl a)]
    exact ih

theorem lexLt_asymm : ∀ {a b : List Char}, lexLt a b = true → lexLt b a = false
  | [], [], h => by simp [lexLt] at h
  | [], _ :: _, _ => rfl
  | _ :: _, [], h => by simp [lexLt] at h
  | a :: as, b :: bs, h => by
    rw [lexLt] at h
    rw [lexLt]
    by_cases hab : a < b
    · rw [if_neg (lt_asymm hab), if_pos hab]
    · by_cases hba : b < a
      · rw [if_neg hab, if_pos hba] at h
        exact absurd h (by simp)
      · rw [if_neg hab, if_neg hba] at h
        rw [if_neg hba, if_neg hab]
        exact lexLt_asymm h

theorem lexLt_append_left (l a b : List Char) :
    lexLt (l ++ a) (l ++ b) = lexLt a b := by
  induction l with
  | nil => rfl
  | cons c cs ih =>
    show lexLt (c :: (cs ++ a)) (c :: (cs ++ b)) = lexLt a b
    rw [lexLt, if_neg (lt_irrefl c), if_neg (lt_irrefl c)]
    exact ih

end TPT

namespace TPT

/-! Characterisation of `Nat.repr` (the embedding of JS `String(n)`) on
numbers below 10000, in terms of explicit digit characters. -/

theorem toDigitsCore_step (f n : Nat) (ds : List Char) (h : 10 ≤ n) :
    Nat.toDigitsCore 10 (f + 1) n ds
      = Nat.toDigitsCore 10 f (n / 10) (Nat.digitChar (n % 10) :: ds) := by
  have hne : ¬ n / 10 = 0 := by
    have : 1 ≤ n / 10 := (Nat.le_div_iff_mul_le (by omega)).mpr (by omega)
    omega
  simp only [Nat.toDigitsCore, hne, if_false]

theorem toDigitsCore_base (f n : Nat) (ds : List Char) (h : n < 10) :
    Nat.toDigitsCore 10 (f + 1) n ds = Nat.digitChar (n % 10) :: ds := by
  have hz : n / 10 = 0 := Nat.div_eq_of_lt h
  simp only [Nat.toDigitsCore, hz, if_true]

theorem repr_data_lt10 (n : Nat) (h : n < 10) :
    (Nat.repr n).data = [Nat.digitChar n] := by
  show (Nat.toDigits 10 n).asString.data = _
  rw [Nat.toDigits, toDigitsCore_base _ _ _ h, Nat.mod_eq_of_lt h]
  rfl

theorem repr_data_lt100 (n : Nat) (h1 : 10 ≤ n) (h2 : n < 100) :
    (Nat.repr n).data = [Nat.digitChar (n / 10), Nat.digitChar (n % 10)] := by
  show (Nat.toDigits 10 n).asString.data = _
  rw [Nat.toDigits]
  obtain ⟨m, rfl⟩ : ∃ m, n = m + 1 := ⟨n - 1, by omega⟩
  rw [toDigitsCore_step _ _ _ h1]
  rw [toDigitsCore_base _ _ _ (by omega)]
  rw [Nat.mod_eq_of_lt (show (m + 1) / 10 < 10 by omega)]
  rfl

theorem repr_data_lt1000 (n : Nat) (h1 : 100 ≤ n) (h2 : n < 1000) :
    (Nat.repr n).data
      = [Nat.digitChar (n / 100), Nat.digitChar (n / 10 % 10), Nat.digitChar (n % 10)] := by
  show (Nat.toDigits 10 n).asString.data = _
  rw [Nat.toDigits]
  obtain ⟨m, rfl⟩ : ∃ m, n = m + 2 := ⟨n - 2, by omega⟩
  rw [toDigitsCore_step _ _ _ (by omega)]
  rw [toDigitsCore_step _ _ _ (by omega)]
  rw [toDigitsCore_base _ _ _ (by omega)]
  rw [Nat.div_div_eq_div_mul]
  rw [Nat.mod_eq_of_lt (show (m + 2) / (10 * 10) < 10 by omega)]
  rfl

theorem repr_data_lt10000 (n : Nat) (h1 : 1000 ≤ n) (h2 : n < 10000) :
    (Nat.repr n).data
      = [Nat.digitChar (n / 1000), Nat.digitChar (n / 100 % 10),
         Nat.digitChar (n / 10 % 10), Nat.digitChar (n % 10)] := by
  show (Nat.toDigits 10 n).asString.data = _
  rw [Nat.toDigits]
  obtain ⟨m, rfl⟩ : ∃ m, n = m + 3 := ⟨n - 3, by omega⟩
  rw [toDigitsCore_step _ _ _ (by omega)]
  rw [toDigitsCore_step _ _ _ (by omega)]
  rw [Nat.div_div_eq_div_mul]
  rw [toDigitsCore_step _ _ _ (by omega)]
  rw [Nat.div_div_eq_div_mul]
  rw [toDigitsCore_base _ _ _ (by omega)]
  rw [Nat.mod_eq_of_lt (show (m + 3) / (10 * 10 * 10) < 10 by omega)]
  norm_num
  rfl

theorem repr_length_lt10 (n : Nat) (h : n < 10) : (Nat.repr n).length = 1 := by
  show (Nat.repr n).data.length = 1
  rw [repr_data_lt10 n h]
  rfl

theorem repr_length_lt100 (n : Nat) (h1 : 10 ≤ n) (h2 : n < 100) :
    (Nat.repr n).length = 2 := by
  show (Nat.repr n).data.length = 2
  rw [repr_data_lt100 n h1 h2]
  rfl

theorem repr_length_lt1000 (n : Nat) (h1 : 100 ≤ n) (h2 : n < 1000) :
    (Nat.repr n).length = 3 := by
  show (Nat.repr n).data.length = 3
  rw [repr_data_lt1000 n h1 h2]
  rfl

theorem repr_length_lt10000 (n : Nat) (h1 : 1000 ≤ n) (h2 : n < 10000) :
    (Nat.repr n).length = 4 := by
  show (Nat.repr n).data.length = 4
  rw [repr_data_lt10000 n h1 h2]
  rfl

/-- Zero-padding to four places makes every sequence number below 10000 a
four-character digit string whose characters are the decimal digits. -/
theorem pad4_data (n : Nat) (h : n < 10000) :
    (pad4 n).data
      = [Nat.digitChar (n / 1000), Nat.digitChar (n / 100 % 10),
         Nat.digitChar (n / 10 % 10), Nat.digitChar (n % 10)] := by
  rw [pad4, str_data_append]
  show List.replicate (4 - (Nat.repr n).length) '0' ++ (Nat.repr n).data = _
  rcases Nat.lt_or_ge n 10 with h10 | h10
  · rw [repr_length_lt10 n h10, repr_data_lt10 n h10]
    have e1 : n / 1000 = 0 := by omega
    have e2 : n / 100 % 10 = 0 := by omega
    have e3 : n / 10 % 10 = 0 := by omega
    have e4 : n % 10 = n := by omega
    rw [e1, e2, e3, e4]
    rfl
  rcases Nat.lt_or_ge n 100 with h100 | h100
  · rw [repr_length_lt100 n h10 h100, repr_data_lt100 n h10 h100]
    have e1 : n / 1000 = 0 := by omega
    have e2 : n / 100 % 10 = 0 := by omega
    have e3 : n / 10 % 10 = n / 10 := by omega
    rw [e1, e2, e3]
    rfl
  rcases Nat.lt_or_ge n 1000 with h1000 | h1000
  · rw [repr_length_lt1000 n h100 h1000, repr_data_lt1000 n h100 h1000]
    have e1 : n / 1000 = 0 := by omega
    have e2 : n / 100 % 10 = n / 100 := by omega
    rw [e1, e2]
    rfl
  · rw [repr_length_lt10000 n h1000 h, repr_data_lt10000 n h1000 h]
    rfl

theorem digitChar_lt_iff :
    ∀ a, a < 10 → ∀ b, b < 10 → (Nat.digitChar a < Nat.digitChar b ↔ a < b) := by
  decide

theorem digitChar_isDigit : ∀ a, a < 10 → (Nat.digitChar a).isDigit = true := by
  decide

theorem digitChar_ne_dash : ∀ a, a < 10 → (Nat.digitChar a != '-') = true := by
  decide

theorem digitChar_toNat : ∀ a, a < 10 → (Nat.digitChar a).toNat - 48 = a := by
  decide

/-- On sequence numbers up to 9999 the zero-padded rendering is strictly
monotone for the lexicographic string order. -/
theorem pad4_lexLt (i j : Nat) (hij : i < j) (hj : j < 10000) :
    lexLt (pad4 i).data (pad4 j).data = true := by
  rw [pad4_data i (by omega), pad4_data j hj]
  have key : ∀ (a b : Nat) (l m : List Char), a < 10 → b < 10 → a < b →
      lexLt (Nat.digitChar a :: l) (Nat.digitChar b :: m) = true := by
    intro a b l m ha hb hab
    rw [lexLt, if_pos ((digitChar_lt_iff a ha b hb).mpr hab)]
  have keyEq : ∀ (a : Nat) (l m : List Char),
      lexLt (Nat.digitChar a :: l) (Nat.digitChar a :: m) = lexLt l m := by
    intro a l m
    rw [lexLt, if_neg (lt_irrefl _), if_neg (lt_irrefl _)]
  have hcases :
      i / 1000 < j / 1000
      ∨ (i / 1000 = j / 1000 ∧ (i / 100 % 10 < j / 100 % 10
        ∨ (i / 100 % 10 = j / 100 % 10 ∧ (i / 10 % 10 < j / 10 % 10
          ∨ (i / 10 % 10 = j / 10 % 10 ∧ i % 10 < j % 10))))) := by omega
  rcases hcases with h1 | ⟨e1, h2 | ⟨e2, h3 | ⟨e3, h4⟩⟩⟩
  · exact key _ _ _ _ (by omega) (by omega) h1
  · rw [e1, keyEq]
    exact key _ _ _ _ (by omega) (by omega) h2
  · rw [e1, e2, keyEq, keyEq]
    exact key _ _ _ _ (by omega) (by omega) h3
  · rw [e1, e2, e3, keyEq, keyEq, keyEq]
    exact key _ _ _ _ (by omega) (by omega) h4

theorem pad4_lexLt_false (i j : Nat) (hij : j ≤ i) (hi : i < 10000) :
    lexLt (pad4 i).data (pad4 j).data = false := by
  rcases Nat.eq_or_lt_of_le hij with rfl | hlt
  · exact lexLt_irrefl _
  · exact lexLt_asymm (pad4_lexLt j i hlt hi)

/-- `parseInt` inverts the zero-padded rendering. -/
theorem jsParseInt_pad4 (n : Nat) (h : n < 10000) :
    jsParseInt (pad4 n) = some n := by
  have d1 := digitChar_isDigit (n / 1000) (by omega)
  have d2 := digitChar_isDigit (n / 100 % 10) (by omega)
  have d3 := digitChar_isDigit (n / 10 % 10) (by omega)
  have d4 := digitChar_isDigit (n % 10) (by omega)
  rw [jsParseInt]
  rw [pad4_data n h]
  simp only [List.takeWhile, d1, d2, d3, d4, List.isEmpty, List.foldl]
  have t1 := digitChar_toNat (n / 1000) (by omega)
  have t2 := digitChar_toNat (n / 100 % 10) (by omega)
  have t3 := digitChar_toNat (n / 10 % 10) (by omega)
  have t4 := digitChar_toNat (n % 10) (by omega)
  rw [t1, t2, t3, t4]
  norm_num
  omega

theorem pad4_no_dash (n : Nat) (h : n < 10000) :
    ∀ c ∈ (pad4 n).data, (c != '-') = true := by
  rw [pad4_data n h]
  intro c hc
  simp only [List.mem_cons, List.not_mem_nil, or_false] at hc
  rcases hc with rfl | rfl | rfl | rfl
  · exact digitChar_ne_dash _ (by omega)
  · exact digitChar_ne_dash _ (by omega)
  · exact digitChar_ne_dash _ (by omega)
  · exact digitChar_ne_dash _ (by omega)

end TPT

namespace TPT

/-! Lemmas about suffix extraction and the max-ID lookup. -/

theorem takeWhile_all_front {p : Char → Bool} :
    ∀ (xs : List Char) (y : Char) (ys : List Char),
      (∀ x ∈ xs, p x = true) → p y = false →
      List.takeWhile p (xs ++ y :: ys) = xs
  | [], y, ys, _, hy => by
    show List.takeWhile p (y :: ys) = []
    exact List.takeWhile_cons_of_neg (by simp [hy])
  | x :: xs, y, ys, hxs, hy => by
    have hx : p x = true := hxs x (List.mem_cons_self _ _)
    show List.takeWhile p (x :: (xs ++ y :: ys)) = x :: xs
    rw [List.takeWhile_cons_of_pos hx]
    rw [takeWhile_all_front xs y ys (fun a ha => hxs a (List.mem_cons_of_mem _ ha)) hy]

theorem lastDashField_concat (u t : List Char) (ht : ∀ c ∈ t, (c != '-') = true) :
    lastDashField (String.mk (u ++ '-' :: t)) = String.mk t := by
  rw [lastDashField]
  show String.mk (((u ++ '-' :: t).reverse.takeWhile fun c => c != '-').reverse) = _
  rw [List.reverse_append, List.reverse_cons, List.append_assoc]
  rw [show ['-'] ++ u.reverse = '-' :: u.reverse from rfl]
  rw [takeWhile_all_front t.reverse '-' u.reverse
    (fun x hx => ht x (List.mem_reverse.mp hx)) (by decide)]
  rw [List.reverse_reverse]

theorem pfx_append_data (fy t : String) :
    (pfxOf fy ++ t).data = ("TE-FY".data ++ fy.data) ++ '-' :: t.data := by
  rw [pfxOf, str_data_append, str_data_append, str_data_append]
  rw [show ("-" : String).data = ['-'] from rfl, List.append_assoc]
  rfl

theorem lastDashField_pfx (fy t : String) (ht : ∀ c ∈ t.data, (c != '-') = true) :
    lastDashField (pfxOf fy ++ t) = t := by
  have h1 : pfxOf fy ++ t = String.mk (("TE-FY".data ++ fy.data) ++ '-' :: t.data) := by
    calc pfxOf fy ++ t = String.mk ((pfxOf fy ++ t).data) := (str_mk_data _).symm
      _ = _ := by rw [pfx_append_data]
  rw [h1, lastDashField_concat _ _ ht, str_mk_data]

theorem isPrefixOf_append_self : ∀ (l t : List Char), l.isPrefixOf (l ++ t) = true
  | [], _ => by simp [List.isPrefixOf]
  | a :: as, t => by
    show List.isPrefixOf (a :: as) (a :: (as ++ t)) = true
    simp only [List.isPrefixOf, beq_self_eq_true, Bool.true_and]
    exact isPrefixOf_append_self as t

theorem matchIds_append (S T : List String) (p : String) :
    matchIds (S ++ T) p = matchIds S p ++ matchIds T p := by
  simp [matchIds]

theorem matchIds_nil (S : List String) (p : String)
    (h : ∀ s ∈ S, p.data.isPrefixOf s.data = false) : matchIds S p = [] := by
  rw [matchIds, List.filter_eq_nil_iff]
  intro s hs
  simp [h s hs]

theorem matchIds_gen (fy : String) (k : Nat) :
    matchIds ((List.range k).map fun i => pfxOf fy ++ pad4 (i + 1)) (pfxOf fy)
      = (List.range k).map fun i => pfxOf fy ++ pad4 (i + 1) := by
  rw [matchIds, List.filter_eq_self]
  intro s hs
  obtain ⟨i, _, rfl⟩ := List.mem_map.mp hs
  rw [str_data_append, isPrefixOf_append_self]

theorem maxLex_append_one (l : List String) (x : String) :
    maxLex (l ++ [x]) = maxStep (maxLex l) x := by
  rw [maxLex, maxLex, List.foldl_append]
  rfl

theorem maxLex_gen (fy : String) :
    ∀ k : Nat, 1 ≤ k → k ≤ 9999 →
      maxLex ((List.range k).map fun i => pfxOf fy ++ pad4 (i + 1))
        = some (pfxOf fy ++ pad4 k)
  | 0, h1, _ => by omega
  | n + 1, _, hk => by
    rw [List.range_succ, List.map_append]
    rw [show List.map (fun i => pfxOf fy ++ pad4 (i + 1)) [n] = [pfxOf fy ++ pad4 (n + 1)]
      from rfl]
    rw [maxLex_append_one]
    by_cases hn : n = 0
    · subst hn; rfl
    · rw [maxLex_gen fy n (by omega) (by omega)]
      rw [maxStep]
      rw [str_data_append, str_data_append, lexLt_append_left]
      rw [pad4_lexLt n (n + 1) (by omega) (by omega)]
      simp

theorem nextSeq_eq_of (store : List String) (p last : String) (n : Nat)
    (h1 : maxLex (matchIds store p) = some last)
    (h2 : jsParseInt (lastDashField last) = some n) :
    nextSeq store p = n + 1 := by
  rw [nextSeq, h1]
  show (match jsParseInt (lastDashField last) with | none => 1 | some m => m + 1) = n + 1
  rw [h2]

theorem nextSeq_eq_one (store : List String) (p : String)
    (h1 : maxLex (matchIds store p) = none) :
    nextSeq store p = 1 := by
  rw [nextSeq, h1]

theorem nextSeq_closed (fy : String) (S0 : List String) (k : Nat)
    (hS0 : ∀ s ∈ S0, (pfxOf fy).data.isPrefixOf s.data = false) (hk : k ≤ 9999) :
    nextSeq (S0 ++ (List.range k).map fun i => pfxOf fy ++ pad4 (i + 1)) (pfxOf fy)
      = k + 1 := by
  have hm : matchIds (S0 ++ (List.range k).map fun i => pfxOf fy ++ pad4 (i + 1)) (pfxOf fy)
      = (List.range k).map fun i => pfxOf fy ++ pad4 (i + 1) := by
    rw [matchIds_append, matchIds_nil S0 _ hS0, List.nil_append, matchIds_gen]
  cases k with
  | zero => exact nextSeq_eq_one _ _ (by rw [hm]; rfl)
  | succ n =>
    refine nextSeq_eq_of _ _ (pfxOf fy ++ pad4 (n + 1)) (n + 1) ?_ ?_
    · rw [hm]
      exact maxLex_gen fy (n + 1) (by omega) hk
    · rw [lastDashField_pfx fy _ (pad4_no_dash (n + 1) (by omega))]
      exact jsParseInt_pad4 (n + 1) (by omega)

end TPT

namespace TPT

theorem createdIds_closed (fy : String) (ds : List (Nat × Nat)) :
    ∀ (k : Nat) (S0 : List String),
      (∀ d ∈ ds, getFinancialYear d.1 d.2 = fy) →
      (∀ s ∈ S0, (pfxOf fy).data.isPrefixOf s.data = false) →
      k + ds.length ≤ 9999 →
      createdIds (S0 ++ (List.range k).map fun i => pfxOf fy ++ pad4 (i + 1)) ds
        = (List.range ds.length).map fun i => pfxOf fy ++ pad4 (k + i + 1) := by
  induction ds with
  | nil => intro k S0 _ _ _; rfl
  | cons d rest ih =>
    intro k S0 hfy hS0 hlen
    rw [List.length_cons] at hlen
    rw [createdIds]
    have hd : getFinancialYear d.1 d.2 = fy := hfy d (List.mem_cons_self _ _)
    rw [hd, createId]
    rw [nextSeq_closed fy S0 k hS0 (by omega)]
    have hstep : (S0 ++ (List.range k).map fun i => pfxOf fy ++ pad4 (i + 1))
          ++ [pfxOf fy ++ pad4 (k + 1)]
        = S0 ++ (List.range (k + 1)).map fun i => pfxOf fy ++ pad4 (i + 1) := by
      rw [List.append_assoc, List.range_succ, List.map_append]
      exact rfl
    rw [hstep]
    rw [ih (k + 1) S0 (fun d' hd' => hfy d' (List.mem_cons_of_mem _ hd')) hS0 (by omega)]
    rw [List.length_cons, List.range_succ_eq_map, List.map_cons, List.map_map]
    have hhead : k + 0 + 1 = k + 1 := by omega
    have htail : List.map (fun i => pfxOf fy ++ pad4 (k + 1 + i + 1)) (List.range rest.length)
        = List.map ((fun i => pfxOf fy ++ pad4 (k + i + 1)) ∘ Nat.succ) (List.range rest.length) := by
      apply List.map_congr_left
      intro a _
      show pfxOf fy ++ pad4 (k + 1 + a + 1) = pfxOf fy ++ pad4 (k + (a + 1) + 1)
      rw [show k + 1 + a + 1 = k + (a + 1) + 1 from by omega]
    rw [htail, hhead]

/-- C1 (amended): starting from a store with no entry matching the financial
year's prefix, up to 9999 serial creations dated in that financial year are
assigned the IDs `prefix ++ pad4 1, prefix ++ pad4 2, ...` in order, so the
parsed numeric suffixes are exactly `1, 2, ...` — strictly increasing from
`0001`. -/
theorem c1_serial_ids (fy : String) (ds : List (Nat × Nat)) (S0 : List String)
    (hfy : ∀ d ∈ ds, getFinancialYear d.1 d.2 = fy)
    (hS0 : ∀ s ∈ S0, (pfxOf fy).data.isPrefixOf s.data = false)
    (hlen : ds.length ≤ 9999) :
    createdIds S0 ds = (List.range ds.length).map (fun i => pfxOf fy ++ pad4 (i + 1))
    ∧ suffixNats (createdIds S0 ds) = (List.range ds.length).map (fun i => i + 1) := by
  have h0 := createdIds_closed fy ds 0 S0 hfy hS0 (by omega)
  simp only [List.range_zero, List.map_nil, List.append_nil] at h0
  have hids : createdIds S0 ds
      = (List.range ds.length).map (fun i => pfxOf fy ++ pad4 (i + 1)) := by
    rw [h0]
    apply List.map_congr_left
    intro i _
    rw [show 0 + i + 1 = i + 1 from by omega]
  refine ⟨hids, ?_⟩
  rw [hids, suffixNats, List.map_map]
  apply List.map_congr_left
  intro i hi
  have hi' : i < ds.length := List.mem_range.mp hi
  show (jsParseInt (lastDashField (pfxOf fy ++ pad4 (i + 1)))).getD 0 = i + 1
  rw [lastDashField_pfx fy _ (pad4_no_dash _ (by omega))]
  rw [jsParseInt_pad4 _ (by omega)]
  rfl

/-- Witness for C1: the spec's own scenario — three creations dated April
2024, April 2024, January 2025 (all in FY 2024-25) against a store holding
one unrelated ID get suffixes 1, 2, 3. -/
theorem c1_serial_ids_witness :
    (∀ d ∈ [((2024 : Nat), (4 : Nat)), (2024, 4), (2025, 1)],
        getFinancialYear d.1 d.2 = "2024-25")
    ∧ (∀ s ∈ ["USER-0001"], (pfxOf "2024-25").data.isPrefixOf s.data = false)
    ∧ ([((2024 : Nat), (4 : Nat)), (2024, 4), (2025, 1)] : List (Nat × Nat)).length ≤ 9999
    ∧ (createdIds ["USER-0001"] [((2024 : Nat), (4 : Nat)), (2024, 4), (2025, 1)]
        = (List.range 3).map (fun i => pfxOf "2024-25" ++ pad4 (i + 1))
      ∧ suffixNats (createdIds ["USER-0001"] [((2024 : Nat), (4 : Nat)), (2024, 4), (2025, 1)])
        = (List.range 3).map (fun i => i + 1)) :=
  ⟨by decide, by decide, by decide,
    c1_serial_ids "2024-25" [((2024 : Nat), (4 : Nat)), (2024, 4), (2025, 1)] ["USER-0001"]
      (by decide) (by decide) (by decide)⟩

end TPT

namespace TPT

theorem createdIds_append (ds1 ds2 : List (Nat × Nat)) :
    ∀ S : List String,
      createdIds S (ds1 ++ ds2)
        = createdIds S ds1 ++ createdIds (S ++ createdIds S ds1) ds2 := by
  induction ds1 with
  | nil =>
    intro S
    simp [createdIds]
  | cons d rest ih =>
    intro S
    simp only [List.cons_append, createdIds, List.append_eq]
    rw [ih]
    simp only [List.append_assoc, List.singleton_append]

theorem not_chain_lt_append_pair (l : List Nat) (x : Nat) :
    ¬ List.Chain' (· < ·) (l ++ [x, x]) := by
  intro h
  have h2 := (List.chain'_append.mp h).2.1
  exact lt_irrefl x (List.chain'_cons.mp h2).1

theorem cex_core (L : List String) (A : String)
    (hL : createdIds [] (List.replicate 9999 ((2024 : Nat), (5 : Nat))) = L)
    (hA1 : createId L (getFinancialYear 2024 5) = A)
    (hA2 : createId (L ++ [A]) (getFinancialYear 2024 5) = A)
    (hsuf : (jsParseInt (lastDashField A)).getD 0 = 10000) :
    ¬ List.Chain' (· < ·)
      (suffixNats (createdIds [] (List.replicate 10001 ((2024 : Nat), (5 : Nat))))) := by
  have hsplit : List.replicate 10001 ((2024 : Nat), (5 : Nat))
      = List.replicate 9999 ((2024 : Nat), (5 : Nat))
        ++ List.replicate 2 ((2024 : Nat), (5 : Nat)) := by
    rw [← List.replicate_add]
  have h2steps : createdIds L (List.replicate 2 ((2024 : Nat), (5 : Nat))) = [A, A] := by
    show createdIds L [((2024 : Nat), (5 : Nat)), ((2024 : Nat), (5 : Nat))] = _
    simp only [createdIds]
    rw [hA1, hA2]
  have hids : createdIds [] (List.replicate 10001 ((2024 : Nat), (5 : Nat))) = L ++ [A, A] := by
    rw [hsplit, createdIds_append, hL, List.nil_append, h2steps]
  have hsufl : suffixNats (createdIds [] (List.replicate 10001 ((2024 : Nat), (5 : Nat))))
      = suffixNats L ++ [10000, 10000] := by
    rw [hids, suffixNats, List.map_append]
    simp only [List.map_cons, List.map_nil]
    rw [hsuf, suffixNats]
  rw [hsufl]
  exact not_chain_lt_append_pair _ 10000

/-- Counterexample to C1 as stated: after 10001 serial creations, all dated
May 2024, from an empty store, the parsed numeric suffixes of the assigned
IDs are not strictly increasing — creations 10000 and 10001 both receive
sequence 10000, because `"TE-FY2024-25-9999"` is lexicographically greater
than `"TE-FY2024-25-10000"`. -/
theorem c1_counterexample :
    ¬ List.Chain' (· < ·)
      (suffixNats (createdIds [] (List.replicate 10001 ((2024 : Nat), (5 : Nat))))) := by
  have hL : createdIds [] (List.replicate 9999 ((2024 : Nat), (5 : Nat)))
      = (List.range 9999).map (fun i => pfxOf "2024-25" ++ pad4 (i + 1)) := by
    have h0 := createdIds_closed "2024-25" (List.replicate 9999 ((2024 : Nat), (5 : Nat))) 0 []
      (fun d hd => by rw [List.eq_of_mem_replicate hd]; decide)
      (fun s hs => absurd hs (List.not_mem_nil s))
      (by simp only [List.length_replicate]; omega)
    simp only [List.range_zero, List.map_nil, List.append_nil, List.length_replicate] at h0
    rw [h0]
    apply List.map_congr_left
    intro i _
    rw [show 0 + i + 1 = i + 1 from by omega]
  have hA1 : createId ((List.range 9999).map (fun i => pfxOf "2024-25" ++ pad4 (i + 1)))
        (getFinancialYear 2024 5)
      = pfxOf "2024-25" ++ pad4 10000 := by
    rw [show getFinancialYear 2024 5 = "2024-25" from rfl]
    rw [createId]
    have hn := nextSeq_closed "2024-25" [] 9999
      (fun s hs => absurd hs (List.not_mem_nil s)) (by omega)
    rw [List.nil_append] at hn
    rw [hn]
  have hmax2 : maxLex (matchIds ((List.range 9999).map (fun i => pfxOf "2024-25" ++ pad4 (i + 1))
        ++ [pfxOf "2024-25" ++ pad4 10000]) (pfxOf "2024-25"))
      = some (pfxOf "2024-25" ++ pad4 9999) := by
    rw [matchIds_append, matchIds_gen]
    have hm1 : matchIds [pfxOf "2024-25" ++ pad4 10000] (pfxOf "2024-25")
        = [pfxOf "2024-25" ++ pad4 10000] := by
      rw [matchIds, List.filter_eq_self]
      intro s hs
      rw [List.mem_singleton.mp hs, str_data_append, isPrefixOf_append_self]
    rw [hm1, maxLex_append_one, maxLex_gen "2024-25" 9999 (by omega) (by omega)]
    rw [maxStep]
    rw [str_data_append, str_data_append, lexLt_append_left]
    rw [show lexLt (pad4 9999).data (pad4 10000).data = false from by decide]
    rfl
  have hA2 : createId ((List.range 9999).map (fun i => pfxOf "2024-25" ++ pad4 (i + 1))
        ++ [pfxOf "2024-25" ++ pad4 10000]) (getFinancialYear 2024 5)
      = pfxOf "2024-25" ++ pad4 10000 := by
    rw [show getFinancialYear 2024 5 = "2024-25" from rfl]
    rw [createId]
    rw [nextSeq_eq_of _ _ (pfxOf "2024-25" ++ pad4 9999) 9999 hmax2
      (by rw [lastDashField_pfx "2024-25" _ (pad4_no_dash 9999 (by omega))]
          exact jsParseInt_pad4 9999 (by omega))]
  have hsuf : (jsParseInt (lastDashField (pfxOf "2024-25" ++ pad4 10000))).getD 0 = 10000 := by
    rw [lastDashField_pfx "2024-25" _ (by decide)]
    rw [show jsParseInt (pad4 10000) = some 10000 from by decide]
    rfl
  exact cex_core _ _ hL hA1 hA2 hsuf

end TPT

namespace TPT

/-- C2: the allocator's financial-year label is `(y, y+1)` for months from
April on, and `(y-1, y)` before April; in particular a March date (month 3,
e.g. March 31) of calendar year `y` is labelled `(y-1)-y` and an April date
(month 4, e.g. April 1) of the same year is labelled `y-(y+1)`. -/
theorem c2_financial_year (y m : Nat) (h1 : 1 ≤ m) (h2 : m ≤ 12) :
    ((4 ≤ m → getFinancialYear y m = specFYLabel y (y + 1))
      ∧ (m < 4 → getFinancialYear y m = specFYLabel (y - 1) y))
    ∧ getFinancialYear y 3 = specFYLabel (y - 1) y
    ∧ getFinancialYear y 4 = specFYLabel y (y + 1) := by
  refine ⟨⟨fun hm => ?_, fun hm => ?_⟩, ?_, ?_⟩
  · rw [getFinancialYear, if_pos hm, specFYLabel]
  · rw [getFinancialYear, if_neg (by omega), specFYLabel]
  · rw [getFinancialYear, if_neg (by omega), specFYLabel]
  · rw [getFinancialYear, if_pos (by omega), specFYLabel]

/-- Witness for C2 at year 2024, month 4. -/
theorem c2_financial_year_witness :
    ((1 : Nat) ≤ 4 ∧ (4 : Nat) ≤ 12)
    ∧ (((4 ≤ 4 → getFinancialYear 2024 4 = specFYLabel 2024 (2024 + 1))
        ∧ (4 < 4 → getFinancialYear 2024 4 = specFYLabel (2024 - 1) 2024))
      ∧ getFinancialYear 2024 3 = specFYLabel (2024 - 1) 2024
      ∧ getFinancialYear 2024 4 = specFYLabel 2024 (2024 + 1)) :=
  ⟨⟨by decide, by decide⟩, c2_financial_year 2024 4 (by decide) (by decide)⟩

theorem natMax_eq_right {a b : Nat} (h : a ≤ b) : Nat.max a b = b := by
  show (if a ≤ b then b else a) = b
  exact if_pos h

theorem natMax_eq_left {a b : Nat} (h : b ≤ a) : Nat.max a b = a := by
  show (if a ≤ b then b else a) = a
  by_cases hc : a ≤ b
  · rw [if_pos hc]; omega
  · rw [if_neg hc]

theorem foldl_max_le (b : Nat) : ∀ (l : List Nat) (a : Nat), a ≤ b → (∀ s ∈ l, s ≤ b) →
    l.foldl Nat.max a ≤ b
  | [], a, ha, _ => ha
  | x :: xs, a, ha, h => by
    show xs.foldl Nat.max (Nat.max a x) ≤ b
    exact foldl_max_le b xs _ (Nat.max_le.mpr ⟨ha, h x (List.mem_cons_self _ _)⟩)
      (fun s hs => h s (List.mem_cons_of_mem _ hs))

theorem foldl_max_append (l : List Nat) (x a : Nat) :
    (l ++ [x]).foldl Nat.max a = Nat.max (l.foldl Nat.max a) x := by
  rw [List.foldl_append]
  rfl

theorem maxLex_pads (p : String) (l : List Nat) :
    l ≠ [] → (∀ s ∈ l, s ≤ 9999) →
      maxLex (l.map fun s => p ++ pad4 s) = some (p ++ pad4 (l.foldl Nat.max 0)) := by
  induction l using List.reverseRecOn with
  | nil => intro h _; exact absurd rfl h
  | append_singleton l x ih =>
    intro _ hb
    rw [List.map_append]
    rw [show List.map (fun s => p ++ pad4 s) [x] = [p ++ pad4 x] from rfl]
    rw [maxLex_append_one]
    by_cases hl : l = []
    · subst hl
      simp [maxLex, maxStep, List.foldl, Nat.zero_max]
    · have hb' : ∀ s ∈ l, s ≤ 9999 := fun s hs => hb s (List.mem_append_left _ hs)
      rw [ih hl hb']
      rw [maxStep]
      rw [str_data_append, str_data_append, lexLt_append_left]
      have hM : l.foldl Nat.max 0 ≤ 9999 := foldl_max_le 9999 l 0 (by omega) hb'
      have hx : x ≤ 9999 := hb x (List.mem_append_right _ (List.mem_singleton.mpr rfl))
      rw [foldl_max_append]
      by_cases hcmp : l.foldl Nat.max 0 < x
      · rw [pad4_lexLt _ _ hcmp (by omega)]
        rw [if_pos rfl, natMax_eq_right (Nat.le_of_lt hcmp)]
      · have hxe : x ≤ l.foldl Nat.max 0 := by omega
        rw [pad4_lexLt_false _ _ hxe (by omega)]
        rw [if_neg Bool.false_ne_true, natMax_eq_left hxe]

/-- C3: over any non-empty set of IDs sharing one financial-year prefix
whose suffixes are all at most 9999, the lookup's lexicographically greatest
ID is the one with the numerically greatest suffix; with a suffix of 10000
present the two orders disagree — the lexicographic maximum of the IDs with
suffixes 9999 and 10000 is the 9999 one although the numeric maximum is
10000. -/
theorem c3_lex_max (p : String) (l : List Nat) (hne : l ≠ [])
    (hb : ∀ s ∈ l, s ≤ 9999) :
    maxLex (l.map fun s => p ++ pad4 s) = some (p ++ pad4 (l.foldl Nat.max 0))
    ∧ maxLex ["TE-FY2024-25-" ++ pad4 9999, "TE-FY2024-25-" ++ pad4 10000]
        = some ("TE-FY2024-25-" ++ pad4 9999)
    ∧ ([9999, 10000] : List Nat).foldl Nat.max 0 = 10000 :=
  ⟨maxLex_pads p l hne hb, by decide, by decide⟩

/-- Witness for C3 with prefix `"P-"` and suffix set `{3, 7}`. -/
theorem c3_lex_max_witness :
    (([3, 7] : List Nat) ≠ [] ∧ (∀ s ∈ ([3, 7] : List Nat), s ≤ 9999))
    ∧ (maxLex (([3, 7] : List Nat).map fun s => "P-" ++ pad4 s)
        = some ("P-" ++ pad4 (([3, 7] : List Nat).foldl Nat.max 0))
      ∧ maxLex ["TE-FY2024-25-" ++ pad4 9999, "TE-FY2024-25-" ++ pad4 10000]
          = some ("TE-FY2024-25-" ++ pad4 9999)
      ∧ ([9999, 10000] : List Nat).foldl Nat.max 0 = 10000) :=
  ⟨⟨by decide, by decide⟩, c3_lex_max "P-" [3, 7] (by decide) (by decide)⟩

/-- C10: a creation whose body supplies a non-empty `id` string keeps exactly
that string — the pre-save hook only generates an ID when `this.id` is falsy,
so the `TE-FY<year>-<seq>` format is not enforced on client-supplied IDs. -/
theorem c10_client_id (store : List String) (d : Nat × Nat) (s : String)
    (h : s ≠ "") :
    preSaveId (some s) store d = s := by
  rw [preSaveId, if_neg]
  intro hcontra
  exact h ((String.isEmpty_iff s).mp hcontra)

/-- Witness for C10: the client-chosen ID `"CUSTOM-99"`, which does not match
the `TE-FY<year>-<seq>` format, is stored verbatim. -/
theorem c10_client_id_witness :
    ("CUSTOM-99" : String) ≠ ""
    ∧ preSaveId (some "CUSTOM-99") ["TE-FY2024-25-0001"] (2024, 5) = "CUSTOM-99" :=
  ⟨by decide, c10_client_id ["TE-FY2024-25-0001"] (2024, 5) "CUSTOM-99" (by decide)⟩

end TPT

namespace TPT

/-! The list route: projection lemmas and the ownership/pagination claims. -/

theorem listEntries_entries (db : List Entry) (uid page limit : Nat)
    (search status fromF toF : String) :
    (listEntries db uid page limit search status fromF toF).entries
      = ((List.insertionSort (fun a b => b.createdAt ≤ a.createdAt)
          (db.filter (matchesQuery uid search status fromF toF))).drop
            ((page - 1) * limit)).take limit := rfl

theorem listEntries_total (db : List Entry) (uid page limit : Nat)
    (search status fromF toF : String) :
    (listEntries db uid page limit search status fromF toF).total
      = (db.filter (matchesQuery uid search status fromF toF)).length := rfl

theorem listEntries_pages (db : List Entry) (uid page limit : Nat)
    (search status fromF toF : String) :
    (listEntries db uid page limit search status fromF toF).pages
      = jsCeilDiv (db.filter (matchesQuery uid search status fromF toF)).length limit := rfl

theorem listEntries_hasNext (db : List Entry) (uid page limit : Nat)
    (search status fromF toF : String) :
    (listEntries db uid page limit search status fromF toF).hasNext
      = decide (page < jsCeilDiv (db.filter (matchesQuery uid search status fromF toF)).length
          limit) := rfl

theorem listEntries_hasPrev (db : List Entry) (uid page limit : Nat)
    (search status fromF toF : String) :
    (listEntries db uid page limit search status fromF toF).hasPrev
      = decide (1 < page) := rfl

/-- C4: every entry the list route returns belongs to the caller, whatever
the search and filter parameters are, and the reported total counts exactly
the caller's entries that satisfy the optional clauses. -/
theorem c4_ownership (db : List Entry) (uid page limit : Nat)
    (search status fromF toF : String) :
    (∀ e ∈ (listEntries db uid page limit search status fromF toF).entries,
      e.userId = uid)
    ∧ (listEntries db uid page limit search status fromF toF).total
        = ((db.filter (fun e => e.userId == uid)).filter
            (scopeClauses search status fromF toF)).length := by
  constructor
  · intro e he
    rw [listEntries_entries] at he
    have h1 : e ∈ List.insertionSort (fun a b => b.createdAt ≤ a.createdAt)
        (db.filter (matchesQuery uid search status fromF toF)) :=
      List.drop_subset _ _ (List.take_subset _ _ he)
    have h2 : e ∈ db.filter (matchesQuery uid search status fromF toF) :=
      (List.perm_insertionSort _ _).mem_iff.mp h1
    have h3 : matchesQuery uid search status fromF toF e = true := List.of_mem_filter h2
    rw [matchesQuery, Bool.and_eq_true] at h3
    exact beq_iff_eq.mp h3.1
  · rw [listEntries_total, List.filter_filter]
    have hsame : List.filter (fun a => (a.userId == uid)
          && scopeClauses search status fromF toF a) db
        = List.filter (fun a => scopeClauses search status fromF toF a
          && (a.userId == uid)) db := by
      apply List.filter_congr
      intro a _
      rw [Bool.and_comm]
    rw [← hsame]
    rfl

/-- Witness for C4: membership in a concrete one-entry result discharged at a
concrete entry. -/
theorem c4_ownership_witness :
    (⟨1, "TE-FY2024-25-0001", 1, "V", "A", "B", "I", "O", "PENDING", 5, 3⟩ : Entry).userId = 1
    ∧ (listEntries [⟨1, "TE-FY2024-25-0001", 1, "V", "A", "B", "I", "O", "PENDING", 5, 3⟩]
        1 1 10 "" "" "" "").total
      = ((([⟨1, "TE-FY2024-25-0001", 1, "V", "A", "B", "I", "O", "PENDING", 5, 3⟩]
          : List Entry).filter (fun e => e.userId == 1)).filter
            (scopeClauses "" "" "" "")).length :=
  ⟨(c4_ownership [⟨1, "TE-FY2024-25-0001", 1, "V", "A", "B", "I", "O", "PENDING", 5, 3⟩]
      1 1 10 "" "" "" "").1
      ⟨1, "TE-FY2024-25-0001", 1, "V", "A", "B", "I", "O", "PENDING", 5, 3⟩ (by decide),
    (c4_ownership [⟨1, "TE-FY2024-25-0001", 1, "V", "A", "B", "I", "O", "PENDING", 5, 3⟩]
      1 1 10 "" "" "" "").2⟩

theorem findOwned_eq_none (db : List Entry) (uid rid : Nat)
    (h : ∀ e ∈ db, e.oid = rid → e.userId ≠ uid) :
    findOwned db uid rid = none := by
  rw [findOwned, List.find?_eq_none]
  intro e he hcontra
  rw [Bool.and_eq_true] at hcontra
  exact h e he (beq_iff_eq.mp hcontra.1) (beq_iff_eq.mp hcontra.2)

/-- C5 (amended): for the targeted GET/PUT/DELETE transport-entry routes,
a request addressing an entry the caller does not own is answered with 404 —
the same signal as for a missing entry — because the lookup combines `_id`
and `userId` in one query; no 403 is produced. -/
theorem c5_owner_mismatch_404 (db : List Entry) (uid rid : Nat) (b : UpdateBody)
    (h : ∀ e ∈ db, e.oid = rid → e.userId ≠ uid) :
    getByIdStatus db uid rid = 404
    ∧ (putById db uid rid b).1 = 404
    ∧ (deleteById db uid rid).1 = 404 := by
  have hf := findOwned_eq_none db uid rid h
  refine ⟨?_, ?_, ?_⟩
  · rw [getByIdStatus, hf]
  · rw [putById, hf]
  · rw [deleteById, hf]

/-- Witness for C5 (amended) on the concrete store `dbC5`. -/
theorem c5_owner_mismatch_404_witness :
    (∀ e ∈ dbC5, e.oid = 1 → e.userId ≠ 1)
    ∧ (getByIdStatus dbC5 1 1 = 404
      ∧ (putById dbC5 1 1 ⟨none, none, none, none, none, none, none, none, none⟩).1 = 404
      ∧ (deleteById dbC5 1 1).1 = 404) :=
  ⟨by decide,
    c5_owner_mismatch_404 dbC5 1 1 ⟨none, none, none, none, none, none, none, none, none⟩
      (by decide)⟩

/-- Counterexample to C5 as stated: the entry with Mongo `_id` 1 exists and
is owned by user 2, yet caller 1 receives 404 — not a 403 — from each of
GET, PUT and DELETE. -/
theorem c5_counterexample :
    dbC5.map (fun e => (e.oid, e.userId)) = [(1, 2)]
    ∧ getByIdStatus dbC5 1 1 = 404
    ∧ getByIdStatus dbC5 1 1 ≠ 403
    ∧ (putById dbC5 1 1 ⟨none, none, none, none, none, none, none, none, none⟩).1 = 404
    ∧ (deleteById dbC5 1 1).1 = 404 := by decide

/-- C6 failing input: user 7 owns entry `_id` 1 and submits an otherwise
valid update whose body also carries `id` and `userId`; the route answers
200 and the stored entry's business ID and owner are overwritten with the
body's values — the business ID is not immutable and ownership is not
preserved. -/
theorem c6_update_overwrites :
    entryC6.id = "TE-FY2024-25-0001" ∧ entryC6.userId = 7
    ∧ (putById [entryC6] 7 1 bodyC6).1 = 200
    ∧ (putById [entryC6] 7 1 bodyC6).2.map (fun e => (e.id, e.userId))
        = [("CLIENT-CHOSEN-ID", 9)] := by decide

end TPT

namespace TPT

theorem jsCeilDiv_bounds (t l : Nat) (hl : 1 ≤ l) :
    t ≤ l * jsCeilDiv t l ∧ l * jsCeilDiv t l < t + l := by
  rw [jsCeilDiv]
  have h1 := Nat.div_add_mod (t + l - 1) l
  have h2 : (t + l - 1) % l < l := Nat.mod_lt _ (by omega)
  generalize hq : l * ((t + l - 1) / l) = q at h1 ⊢
  generalize hr : (t + l - 1) % l = r at h1 h2
  omega

theorem jsCeilDiv_eq_zero_iff (t l : Nat) (hl : 1 ≤ l) :
    jsCeilDiv t l = 0 ↔ t = 0 := by
  constructor
  · intro h0
    have hb := (jsCeilDiv_bounds t l hl).1
    rw [h0] at hb
    omega
  · intro h0
    rw [jsCeilDiv, h0]
    exact Nat.div_eq_of_lt (by omega)

/-- C7: the pagination envelope of the list route: `pages` is the ceiling of
`total / limit` (characterised by its two defining inequalities), `pages` is
0 exactly when `total` is 0, `hasNext` is `page < pages`, `hasPrev` is
`page > 1`, and a `page` beyond `pages` still succeeds with an empty page of
entries. -/
theorem c7_pagination (db : List Entry) (uid page limit : Nat)
    (search status fromF toF : String) (hl : 1 ≤ limit) (hp : 1 ≤ page) :
    ((listEntries db uid page limit search status fromF toF).total
        ≤ limit * (listEntries db uid page limit search status fromF toF).pages
      ∧ limit * (listEntries db uid page limit search status fromF toF).pages
        < (listEntries db uid page limit search status fromF toF).total + limit)
    ∧ ((listEntries db uid page limit search status fromF toF).pages = 0
        ↔ (listEntries db uid page limit search status fromF toF).total = 0)
    ∧ ((listEntries db uid page limit search status fromF toF).hasNext = true
        ↔ page < (listEntries db uid page limit search status fromF toF).pages)
    ∧ ((listEntries db uid page limit search status fromF toF).hasPrev = true
        ↔ 1 < page)
    ∧ ((listEntries db uid page limit search status fromF toF).pages < page
        → (listEntries db uid page limit search status fromF toF).entries = []) := by
  refine ⟨?_, ?_, ?_, ?_, ?_⟩
  · rw [listEntries_total, listEntries_pages]
    exact jsCeilDiv_bounds _ limit hl
  · rw [listEntries_total, listEntries_pages]
    exact jsCeilDiv_eq_zero_iff _ limit hl
  · rw [listEntries_hasNext, listEntries_pages]
    exact decide_eq_true_iff
  · rw [listEntries_hasPrev]
    exact decide_eq_true_iff
  · intro hlt
    rw [listEntries_pages] at hlt
    rw [listEntries_entries]
    have hlen : (List.insertionSort (fun a b => b.createdAt ≤ a.createdAt)
        (db.filter (matchesQuery uid search status fromF toF))).length
        = (db.filter (matchesQuery uid search status fromF toF)).length :=
      (List.perm_insertionSort _ _).length_eq
    have hskip : (db.filter (matchesQuery uid search status fromF toF)).length
        ≤ (page - 1) * limit := by
      have hq := (jsCeilDiv_bounds
        (db.filter (matchesQuery uid search status fromF toF)).length limit hl).1
      have hle : jsCeilDiv (db.filter (matchesQuery uid search status fromF toF)).length limit
          ≤ page - 1 := by omega
      calc (db.filter (matchesQuery uid search status fromF toF)).length
          ≤ limit * jsCeilDiv (db.filter (matchesQuery uid search status fromF toF)).length
              limit := hq
        _ ≤ limit * (page - 1) := Nat.mul_le_mul_left _ hle
        _ = (page - 1) * limit := Nat.mul_comm _ _
    rw [List.drop_eq_nil_of_le (by rw [hlen]; exact hskip), List.take_nil]

/-- Witness for C7 on a two-entry store with `limit = 1` and `page = 5`. -/
theorem c7_pagination_witness :
    ((1 : Nat) ≤ 1 ∧ (1 : Nat) ≤ 5)
    ∧ (((listEntries [⟨1, "E1", 1, "V", "A", "B", "I", "O", "PENDING", 5, 3⟩,
            ⟨2, "E2", 1, "V", "A", "B", "I", "O", "PENDING", 5, 4⟩] 1 5 1 "" "" "" "").total
          ≤ 1 * (listEntries [⟨1, "E1", 1, "V", "A", "B", "I", "O", "PENDING", 5, 3⟩,
            ⟨2, "E2", 1, "V", "A", "B", "I", "O", "PENDING", 5, 4⟩] 1 5 1 "" "" "" "").pages
        ∧ 1 * (listEntries [⟨1, "E1", 1, "V", "A", "B", "I", "O", "PENDING", 5, 3⟩,
            ⟨2, "E2", 1, "V", "A", "B", "I", "O", "PENDING", 5, 4⟩] 1 5 1 "" "" "" "").pages
          < (listEntries [⟨1, "E1", 1, "V", "A", "B", "I", "O", "PENDING", 5, 3⟩,
            ⟨2, "E2", 1, "V", "A", "B", "I", "O", "PENDING", 5, 4⟩] 1 5 1 "" "" "" "").total + 1)
      ∧ ((listEntries [⟨1, "E1", 1, "V", "A", "B", "I", "O", "PENDING", 5, 3⟩,
            ⟨2, "E2", 1, "V", "A", "B", "I", "O", "PENDING", 5, 4⟩] 1 5 1 "" "" "" "").pages = 0
          ↔ (listEntries [⟨1, "E1", 1, "V", "A", "B", "I", "O", "PENDING", 5, 3⟩,
            ⟨2, "E2", 1, "V", "A", "B", "I", "O", "PENDING", 5, 4⟩] 1 5 1 "" "" "" "").total = 0)
      ∧ ((listEntries [⟨1, "E1", 1, "V", "A", "B", "I", "O", "PENDING", 5, 3⟩,
            ⟨2, "E2", 1, "V", "A", "B", "I", "O", "PENDING", 5, 4⟩] 1 5 1 "" "" "" "").hasNext = true
          ↔ 5 < (listEntries [⟨1, "E1", 1, "V", "A", "B", "I", "O", "PENDING", 5, 3⟩,
            ⟨2, "E2", 1, "V", "A", "B", "I", "O", "PENDING", 5, 4⟩] 1 5 1 "" "" "" "").pages)
      ∧ ((listEntries [⟨1, "E1", 1, "V", "A", "B", "I", "O", "PENDING", 5, 3⟩,
            ⟨2, "E2", 1, "V", "A", "B", "I", "O", "PENDING", 5, 4⟩] 1 5 1 "" "" "" "").hasPrev = true
          ↔ 1 < 5)
      ∧ ((listEntries [⟨1, "E1", 1, "V", "A", "B", "I", "O", "PENDING", 5, 3⟩,
            ⟨2, "E2", 1, "V", "A", "B", "I", "O", "PENDING", 5, 4⟩] 1 5 1 "" "" "" "").pages < 5
          → (listEntries [⟨1, "E1", 1, "V", "A", "B", "I", "O", "PENDING", 5, 3⟩,
            ⟨2, "E2", 1, "V", "A", "B", "I", "O", "PENDING", 5, 4⟩] 1 5 1 "" "" "" "").entries
            = [])) :=
  ⟨⟨by decide, by decide⟩,
    c7_pagination [⟨1, "E1", 1, "V", "A", "B", "I", "O", "PENDING", 5, 3⟩,
      ⟨2, "E2", 1, "V", "A", "B", "I", "O", "PENDING", 5, 4⟩] 1 5 1 "" "" "" ""
      (by decide) (by decide)⟩

end TPT

namespace TPT

/-! The stats aggregation: grouping invariants. -/

theorem statsSummary_totalEntries (db : List Entry) (uid now : Nat) :
    (statsSummary db uid now).totalEntries
      = (db.filter (fun e => e.userId == uid)).length := rfl

theorem statsSummary_breakdown (db : List Entry) (uid now : Nat) :
    (statsSummary db uid now).statusBreakdown
      = (((db.filter (fun e => e.userId == uid)).map (fun e => e.status)).dedup).map
          (fun st => ⟨st, ((db.filter (fun e => e.userId == uid)).filter
            (fun e => e.status == st)).length⟩) := rfl

theorem statsSummary_amount (db : List Entry) (uid now : Nat) :
    (statsSummary db uid now).totalAmount
      = match db.filter (fun e => e.userId == uid) with
        | [] => 0
        | _ => ((db.filter (fun e => e.userId == uid)).map (fun e => e.total)).sum := rfl

theorem filter_status_length (mine : List Entry) (st : String) :
    (mine.filter (fun e => e.status == st)).length
      = (mine.map (fun e => e.status)).count st := by
  rw [List.count, List.countP_map, ← List.countP_eq_length_filter]
  rfl

theorem sum_map_add {α : Type} (L : List α) (f g : α → Nat) :
    (L.map (fun x => f x + g x)).sum = (L.map f).sum + (L.map g).sum := by
  induction L with
  | nil => rfl
  | cons a t ih =>
    rw [List.map_cons, List.map_cons, List.map_cons, List.sum_cons, List.sum_cons,
      List.sum_cons, ih]
    omega

theorem sum_map_indicator {α : Type} [BEq α] [LawfulBEq α] (L : List α) (a : α) :
    (L.map (fun x => if a == x then 1 else 0)).sum = L.count a := by
  induction L with
  | nil => rfl
  | cons x t ih =>
    rw [List.map_cons, List.sum_cons, ih, List.count_cons]
    by_cases h : a = x
    · subst h
      simp
      omega
    · have h1 : (a == x) = false := beq_eq_false_iff_ne.mpr h
      have h2 : (x == a) = false := beq_eq_false_iff_ne.mpr (fun hh => h hh.symm)
      simp [h1, h2]

theorem sum_count_dedup {α : Type} [DecidableEq α] (l : List α) :
    (l.dedup.map fun x => l.count x).sum = l.length := by
  induction l with
  | nil => rfl
  | cons a t ih =>
    by_cases h : a ∈ t
    · rw [List.dedup_cons_of_mem h]
      have hc : (t.dedup.map fun x => (a :: t).count x)
          = t.dedup.map fun x => t.count x + (if a == x then 1 else 0) := by
        apply List.map_congr_left
        intro x _
        rw [List.count_cons]
      rw [hc, sum_map_add, ih, sum_map_indicator, List.count_dedup, if_pos h,
        List.length_cons]
    · rw [List.dedup_cons_of_not_mem h, List.map_cons, List.sum_cons]
      have hhead : (a :: t).count a = t.count a + 1 := by
        rw [List.count_cons]
        simp
      have hzero : t.count a = 0 := List.count_eq_zero_of_not_mem h
      have htail : (t.dedup.map fun x => (a :: t).count x)
          = t.dedup.map fun x => t.count x := by
        apply List.map_congr_left
        intro x hx
        have hxa : x ≠ a := by
          intro hh
          subst hh
          exact h (List.mem_dedup.mp hx)
        rw [List.count_cons, beq_eq_false_iff_ne.mpr (fun hh => hxa hh.symm)]
        simp
      rw [hhead, hzero, htail, ih, List.length_cons]
      omega

/-- C8: the stats route reports the caller's entry count; the per-status
bucket counts (statuses with zero occurrences are absent) sum to that count;
and the reported amount is the sum of the caller's `transportBillData.total`
values, 0 when the caller has no entries. -/
theorem c8_stats (db : List Entry) (uid now : Nat) :
    (statsSummary db uid now).totalEntries = (db.filter (fun e => e.userId == uid)).length
    ∧ ((statsSummary db uid now).statusBreakdown.map (fun b => b.count)).sum
        = (statsSummary db uid now).totalEntries
    ∧ (statsSummary db uid now).totalAmount
        = ((db.filter (fun e => e.userId == uid)).map (fun e => e.total)).sum
    ∧ (db.filter (fun e => e.userId == uid) = []
        → (statsSummary db uid now).totalAmount = 0) := by
  refine ⟨rfl, ?_, ?_, ?_⟩
  · rw [statsSummary_breakdown, statsSummary_totalEntries, List.map_map]
    have hmap : ((((db.filter (fun e => e.userId == uid)).map
          (fun e => e.status)).dedup).map
          ((fun b : StatusCount => b.count) ∘ (fun st =>
            (⟨st, ((db.filter (fun e => e.userId == uid)).filter
              (fun e => e.status == st)).length⟩ : StatusCount))))
        = (((db.filter (fun e => e.userId == uid)).map (fun e => e.status)).dedup).map
            (fun st => ((db.filter (fun e => e.userId == uid)).map
              (fun e => e.status)).count st) := by
      apply List.map_congr_left
      intro st _
      exact filter_status_length _ st
    rw [hmap, sum_count_dedup, List.length_map]
  · rw [statsSummary_amount]
    cases hm : db.filter (fun e => e.userId == uid) with
    | nil => rfl
    | cons x xs => rfl
  · intro h
    rw [statsSummary_amount, h]

/-- Witness for C8 on the empty store: the zero-amount clause's hypothesis is
discharged concretely. -/
theorem c8_stats_witness :
    ((statsSummary [] 1 0).totalEntries = (([] : List Entry).filter (fun e => e.userId == 1)).length
      ∧ ((statsSummary [] 1 0).statusBreakdown.map (fun b => b.count)).sum
          = (statsSummary [] 1 0).totalEntries
      ∧ (statsSummary [] 1 0).totalAmount
          = ((([] : List Entry).filter (fun e => e.userId == 1)).map (fun e => e.total)).sum
      ∧ (([] : List Entry).filter (fun e => e.userId == 1) = []
          → (statsSummary [] 1 0).totalAmount = 0))
    ∧ ([] : List Entry).filter (fun e => e.userId == 1) = []
    ∧ (statsSummary [] 1 0).totalAmount = 0 :=
  ⟨c8_stats [] 1 0, by decide, (c8_stats [] 1 0).2.2.2 (by decide)⟩

/-- C9 (amended): the schema-referenced validators for mobile number, GST,
PAN, IFSC and account number are permissive stubs returning `true` on every
input; but the owner-name and company-name validators are not stubs — they
reject strings shorter than 2 characters after trimming or containing
characters outside their classes. -/
theorem c9_validators :
    (∀ s : String, isValidMobile s = true ∧ isValidGST s = true ∧ isValidPAN s = true
      ∧ isValidIFSC s = true ∧ isValidAccountNumber s = true)
    ∧ isValidPersonName "Jane007" = false
    ∧ isValidCompanyName "@" = false :=
  ⟨fun _ => ⟨rfl, rfl, rfl, rfl, rfl⟩, by decide, by decide⟩

/-- Counterexample to C9 as stated: `"John123"` is within the 100-character
limit of the owner-name field, yet the schema's owner-name validator rejects
it — that validator is not a permissive stub returning `true`. -/
theorem c9_counterexample :
    isValidPersonName "John123" = false ∧ ("John123" : String).length ≤ 100 := by
  decide

end TPT
